import Mathlib

/-!
Verification of the curation pipeline in agent/run.py (Daily Line Sheet Agent).

The pipeline stages (acquisition, screening, selection, rendering) are embedded
as pure Lean functions over explicit data:

* the filesystem is modelled by the lists of file names each stage reads or
  writes (directory globs arrive as already-sorted input lists, matching
  the sorted(...) calls in the source);
* the network is modelled by the list of search results and a fetch function
  giving the outcome of each HTTP GET attempt;
* the imaging library (PIL) is a black box per the design: decoding an image
  yields its pixel size or fails, and the grayscale-thumbnail standard
  deviation used by selection arrives as a per-image input statistic;
* Python floats are idealised as rationals; math.log, a numeric library
  routine returning a float, is passed in as a function mathLog : ℕ → ℚ;
* Python round(x, p) (round-half-to-even to p decimal places) is roundTo.
-/

set_option linter.unusedVariables false

namespace DailyLineSheet

/-- Configuration for a single run (dataclass AgentConfig in agent/run.py). -/
structure AgentConfig where
  topic : String
  candidates_to_download : ℕ := 10
  sheets_to_generate : ℕ := 3
deriving DecidableEq

/-- Zero-padded decimal rendering, Python f-string {n:0Nd}:
pads with leading zeros to the requested width, never truncates. -/
def pad (w n : ℕ) : String :=
  let s := toString n
  String.mk (List.replicate (w - s.length) '0') ++ s

/-- Round half to even on rationals (the tie behaviour of Python round()). -/
def roundHalfEven (x : ℚ) : ℤ :=
  let f := ⌊x⌋
  if x - f < 1/2 then f
  else if 1/2 < x - f then f + 1
  else if f % 2 = 0 then f else f + 1

/-- Python round(x, p): the nearest multiple of 10 ^ (-p), ties to even. -/
def roundTo (p : ℕ) (x : ℚ) : ℚ :=
  (roundHalfEven (x * 10 ^ p) : ℚ) / 10 ^ p

/-! ## Acquisition stage (tool_download_pexels_images, run.py lines 59-143) -/

/-- One Pexels search result, with the fields the tool reads. The three
src_* fields are the image-URL variants by quality tier. -/
structure Photo where
  pid : ℕ
  photographer : String
  width : ℕ
  height : ℕ
  page_url : String
  src_original : Option String
  src_large2x : Option String
  src_large : Option String
deriving DecidableEq

/-- Outcome of one HTTP GET of an image URL. -/
inductive FetchResult where
  | ok
  | rateLimited (retryAfter : Option ℕ)
  | httpError (status : ℕ)
deriving DecidableEq

/-- Ways acquisition can raise: empty search results (RuntimeError), or a
non-429 error status propagated by raise_for_status. -/
inductive AcqError where
  | noResults
  | httpError (status : ℕ)
deriving DecidableEq

/-- One entry of review/pexels_manifest.json. -/
structure ManifestItem where
  index : ℕ
  pexels_id : ℕ
  photographer : String
  width : ℕ
  height : ℕ
  page_url : String
  image_url : String
  local_file : String
deriving DecidableEq

/-- What acquisition hands back: the files written into raw/ and the
manifest contents. -/
structure AcqResult where
  downloaded_paths : List String
  items : List ManifestItem
  requested : ℕ
  downloaded : ℕ
deriving DecidableEq

/-- Deterministic raw-file name raw/pexels_{idx:04d}.jpg. -/
def rawPath (idx : ℕ) : String := "raw/pexels_" ++ pad 4 idx ++ ".jpg"

/-- The retry loop, for attempt in range(1, 4): a 429 sleeps and retries,
any other HTTP error status raises (raise_for_status), success writes the
file and breaks. Returns ok true if the image was downloaded, ok false if
the three attempts were exhausted (the image is given up on). -/
def fetchAttempts (fetch : ℕ → FetchResult) : ℕ → ℕ → Except AcqError Bool
  | _, 0 => .ok false
  | attempt, remaining + 1 =>
    match fetch attempt with
    | .rateLimited _ => fetchAttempts fetch (attempt + 1) remaining
    | .httpError s => .error (.httpError s)
    | .ok => .ok true

def mkManifestItem (idx : ℕ) (photo : Photo) (url path : String) : ManifestItem :=
  ⟨idx, photo.pid, photo.photographer, photo.width, photo.height,
   photo.page_url, url, path⟩

/-- The per-photo loop, for idx, photo in enumerate(photos, start=1):
a result with none of the three URL variants is skipped (continue); the
index advances for every photo, downloaded or not. fetch url attempt is
the outcome of the HTTP GET of url on the given (1-based) attempt. -/
def downloadGo (fetch : String → ℕ → FetchResult) :
    ℕ → List Photo → Except AcqError (List String × List ManifestItem)
  | _, [] => .ok ([], [])
  | idx, photo :: rest =>
    match photo.src_original <|> photo.src_large2x <|> photo.src_large with
    | none => downloadGo fetch (idx + 1) rest
    | some url =>
      match fetchAttempts (fetch url) 1 3 with
      | .error e => .error e
      | .ok false => downloadGo fetch (idx + 1) rest
      | .ok true =>
        match downloadGo fetch (idx + 1) rest with
        | .error e => .error e
        | .ok (paths, items) =>
          .ok (rawPath idx :: paths, mkManifestItem idx photo url (rawPath idx) :: items)

/-- tool_download_pexels_images: the search response photos arrive as data;
zero results raise; the list is truncated to candidates_to_download. -/
def tool_download_pexels_images (cfg : AgentConfig) (photos : List Photo)
    (fetch : String → ℕ → FetchResult) : Except AcqError AcqResult :=
  if photos.isEmpty then .error .noResults
  else
    match downloadGo fetch 1 (photos.take cfg.candidates_to_download) with
    | .error e => .error e
    | .ok (paths, items) => .ok ⟨paths, items, cfg.candidates_to_download, paths.length⟩

/-! ## Screening stage (tool_screen_images, run.py lines 145-209) -/

/-- A raw/ file as screening sees it: its name, and the pixel size PIL
reports, or none when Image.open raises (undecodable file). -/
structure SrcImage where
  name : String
  decoded : Option (ℕ × ℕ)
deriving DecidableEq

inductive ScreenVerdict where
  | passed
  | resolutionTooLow
  | extremeAspectRatio
  | unreadableImage
deriving DecidableEq

/-- The per-image decision of tool_screen_images. The source computes
short_side = min(width, height) and aspect_ratio = max(width, height) /
short_side before the threshold checks; a zero short side therefore raises
ZeroDivisionError, which the blanket except clause records as
unreadable_image. Thresholds: min_short_side = 1600, max_aspect_ratio = 2.5. -/
def screenImage (w h : ℕ) : ScreenVerdict :=
  if min w h = 0 then .unreadableImage
  else if min w h < 1600 then .resolutionTooLow
  else if (5 : ℚ) / 2 < ((max w h : ℕ) : ℚ) / ((min w h : ℕ) : ℚ) then .extremeAspectRatio
  else .passed

/-- The measurements stored in a screening entry (aspect ratio is stored
rounded to 2 decimal places, round(aspect_ratio, 2)). -/
structure ScreenDims where
  width : ℕ
  height : ℕ
  short_side : ℕ
  aspect_2dp : ℚ
deriving DecidableEq

/-- The failure vocabulary of the screening report. -/
inductive ScreenFailReason where
  | resolution_too_low
  | extreme_aspect_ratio
  | unreadable_image
deriving DecidableEq

/-- One entry of review/screening_report.json: measurements are present only
when they were computed before the verdict (an unreadable image has none),
and reason is present exactly on failures. -/
structure ScreenEntry where
  file : String
  dims : Option ScreenDims
  reason : Option ScreenFailReason
deriving DecidableEq

def mkScreenDims (w h : ℕ) : ScreenDims :=
  ⟨w, h, min w h, roundTo 2 (((max w h : ℕ) : ℚ) / ((min w h : ℕ) : ℚ))⟩

/-- Builds the report entry for one file, mirroring the body of the
screening loop (try block of run.py lines 172-204). -/
def screenEntryOf (f : SrcImage) : ScreenEntry :=
  match f.decoded with
  | none => ⟨f.name, none, some .unreadable_image⟩
  | some (w, h) =>
    match screenImage w h with
    | .unreadableImage => ⟨f.name, none, some .unreadable_image⟩
    | .resolutionTooLow => ⟨f.name, some (mkScreenDims w h), some .resolution_too_low⟩
    | .extremeAspectRatio => ⟨f.name, some (mkScreenDims w h), some .extreme_aspect_ratio⟩
    | .passed => ⟨f.name, some (mkScreenDims w h), none⟩

/-- review/screening_report.json: an entry lands in passed exactly when it
has no failure reason; a passing file is also copied into ok/. -/
structure ScreenReport where
  passed : List ScreenEntry
  failed : List ScreenEntry
deriving DecidableEq

/-- tool_screen_images over the filename-sorted raw/ glob. -/
def tool_screen_images : List SrcImage → ScreenReport
  | [] => ⟨[], []⟩
  | f :: rest =>
    let e := screenEntryOf f
    let r := tool_screen_images rest
    if e.reason = none then ⟨e :: r.passed, r.failed⟩ else ⟨r.passed, e :: r.failed⟩

/-! ## Selection stage (tool_select_best_images, run.py lines 211-288) -/

/-- An ok/ image as selection sees it: filename, pixel size, and the
standard deviation of the grayscale 800x800 thumbnail that the imaging
library reports for it (a black-box statistic, carried as input data). -/
structure OkImage where
  file : String
  width : ℕ
  height : ℕ
  stddev : ℚ
deriving DecidableEq

/-- d = min(abs(ratio - tr) for tr in [4/5, 3/4, 2/3]). -/
def arDist (ratio : ℚ) : ℚ := min (min |ratio - 4/5| |ratio - 3/4|) |ratio - 2/3|

/-- ar_score = 1 / (1 + d). -/
def arScore (ratio : ℚ) : ℚ := 1 / (1 + arDist ratio)

/-- total = res_score * 1.0 + ar_score * 2.0 + detail_score * 1.5, with
res_score = math.log(short_side) (the mathLog argument) and
detail_score = stddev / 64. -/
def exactTotal (mathLog : ℕ → ℚ) (img : OkImage) : ℚ :=
  mathLog (min img.width img.height) * 1
    + arScore ((img.width : ℚ) / (img.height : ℚ)) * 2
    + img.stddev / 64 * (3/2)

/-- One entry of the scored list in review/selection_report.json; every
numeric field is stored rounded to 3 decimal places, as in the source. -/
structure ScoredEntry where
  file : String
  width : ℕ
  height : ℕ
  short_side : ℕ
  ratio_w_over_h : ℚ
  score_resolution : ℚ
  score_aspect : ℚ
  score_detail : ℚ
  total : ℚ
  picked_as : Option String
deriving DecidableEq

def scoreEntry (mathLog : ℕ → ℚ) (img : OkImage) : ScoredEntry :=
  ⟨img.file, img.width, img.height, min img.width img.height,
   roundTo 3 ((img.width : ℚ) / (img.height : ℚ)),
   roundTo 3 (mathLog (min img.width img.height)),
   roundTo 3 (arScore ((img.width : ℚ) / (img.height : ℚ))),
   roundTo 3 (img.stddev / 64),
   roundTo 3 (exactTotal mathLog img),
   none⟩

/-- The sort key relation of scored.sort(key=lambda x: x["total"],
reverse=True): a before b when the (rounded, stored) total of a is at
least that of b. A stable insertion sort under this relation is exactly a
stable descending sort, which is what Python guarantees. -/
def totalGE (a b : ScoredEntry) : Prop := b.total ≤ a.total

instance : DecidableRel totalGE := fun a b => inferInstanceAs (Decidable (b.total ≤ a.total))

/-- The copy loop, for i, item in enumerate(selected, start=1): each
selected entry gains picked_as = "pick_{i:02d}.jpg". The selected dicts are
the same objects as the head of the scored list, so all_scored shows the
same picked_as fields. -/
def assignPicks : ℕ → List ScoredEntry → List ScoredEntry
  | _, [] => []
  | i, e :: rest =>
    { e with picked_as := some ("pick_" ++ pad 2 i ++ ".jpg") } :: assignPicks (i + 1) rest

/-- review/selection_report.json. -/
structure SelectReport where
  topic : String
  target_count : ℕ
  selected : List ScoredEntry
  all_scored : List ScoredEntry
deriving DecidableEq

/-- tool_select_best_images over the filename-sorted ok/ glob. There is no
emptiness check: an empty input yields an empty report, not an error. -/
def tool_select_best_images (cfg : AgentConfig) (mathLog : ℕ → ℚ)
    (imgs : List OkImage) : SelectReport :=
  let target := max 1 cfg.sheets_to_generate
  let ranked := (imgs.map (scoreEntry mathLog)).insertionSort totalGE
  let selected := assignPicks 1 (ranked.take target)
  ⟨cfg.topic, target, selected, selected ++ ranked.drop target⟩

/-! ## Rendering stage (tool_render_worksheet_pdfs, run.py lines 290-412) -/

inductive RenderError where
  | noPicks
deriving DecidableEq

/-- The page loop, for i, img_path in enumerate(pick_files, start=1): one
PDF sheets/worksheet_{i:02d}.pdf per pick, numbered by list position. -/
def renderGo : ℕ → List String → List String
  | _, [] => []
  | i, _ :: rest => ("sheets/worksheet_" ++ pad 2 i ++ ".pdf") :: renderGo (i + 1) rest

/-- tool_render_worksheet_pdfs over the sorted picks/ glob: raises
"No picks found" on an empty picks area, else renders one worksheet per
pick. Page layout is out of scope (black-box PDF canvas); the claims
concern the output documents and their names. -/
def tool_render_worksheet_pdfs (cfg : AgentConfig) (pick_files : List String) :
    Except RenderError (List String) :=
  if pick_files.isEmpty then .error .noPicks
  else .ok (renderGo 1 pick_files)

/-! ## Helper lemmas -/

/-- The projection of a scored entry that the ordering facts depend on:
its (rounded, stored) total and its original filename. -/
def keyOf (e : ScoredEntry) : ℚ × String := (e.total, e.file)

lemma assignPicks_length (i : ℕ) (l : List ScoredEntry) :
    (assignPicks i l).length = l.length := by
  induction l generalizing i with
  | nil => rfl
  | cons e rest ih => simp [assignPicks, ih]

lemma assignPicks_map_keyOf (i : ℕ) (l : List ScoredEntry) :
    (assignPicks i l).map keyOf = l.map keyOf := by
  induction l generalizing i with
  | nil => rfl
  | cons e rest ih => simp [assignPicks, ih, keyOf]

lemma all_scored_map_keyOf (cfg : AgentConfig) (mathLog : ℕ → ℚ) (imgs : List OkImage) :
    (tool_select_best_images cfg mathLog imgs).all_scored.map keyOf
      = ((imgs.map (scoreEntry mathLog)).insertionSort totalGE).map keyOf := by
  simp only [tool_select_best_images, List.map_append, assignPicks_map_keyOf]
  rw [← List.map_append, List.take_append_drop]

/-- A pairwise fact that only depends on the total and filename of the
entries transfers along equality of the keyOf images. -/
lemma pairwise_of_map_keyOf {Q : ℚ × String → ℚ × String → Prop}
    {l₁ l₂ : List ScoredEntry} (h : l₁.map keyOf = l₂.map keyOf)
    (hp : l₂.Pairwise fun a b => Q (keyOf a) (keyOf b)) :
    l₁.Pairwise fun a b => Q (keyOf a) (keyOf b) := by
  have h₁ : (l₁.map keyOf).Pairwise Q := by
    rw [h, List.pairwise_map]
    exact hp
  rw [List.pairwise_map] at h₁
  exact h₁

/-- Stability of orderedInsert: a pairwise relation T survives inserting a,
provided T a b holds for everything in the list and T y x is automatic
whenever x fails to sort before y (for a tie-respecting T this is exactly
what happens for strictly better-keyed y). -/
lemma pairwise_orderedInsert {α : Type} (r : α → α → Prop) [DecidableRel r]
    (T : α → α → Prop) (hT : ∀ x y, ¬ r x y → T y x) (a : α) :
    ∀ l : List α, l.Pairwise T → (∀ b ∈ l, T a b) → (l.orderedInsert r a).Pairwise T
  | [], _, _ => by simp
  | b :: bs, hl, ha => by
    rw [List.orderedInsert]
    rcases List.pairwise_cons.mp hl with ⟨hb, hbs⟩
    by_cases h : r a b
    · rw [if_pos h]
      exact List.Pairwise.cons ha hl
    · rw [if_neg h]
      refine List.Pairwise.cons ?_
        (pairwise_orderedInsert r T hT a bs hbs fun c hc => ha c (List.mem_cons_of_mem _ hc))
      intro c hc
      rcases (List.mem_orderedInsert r).mp hc with h' | hc
      · subst h'
        exact hT _ _ h
      · exact hb c hc

/-- Stability of insertionSort: a pairwise relation T on the input survives
the sort, provided T y x is automatic whenever x fails to sort before y.
Instantiated with T = "equal totals come in filename order" this is the
stability of Python's list.sort on equal keys. -/
lemma pairwise_insertionSort {α : Type} (r : α → α → Prop) [DecidableRel r]
    (T : α → α → Prop) (hT : ∀ x y, ¬ r x y → T y x) :
    ∀ l : List α, l.Pairwise T → (l.insertionSort r).Pairwise T
  | [], _ => by simp [List.insertionSort]
  | a :: l, hl => by
    rw [List.insertionSort]
    rcases List.pairwise_cons.mp hl with ⟨ha, hl'⟩
    exact pairwise_orderedInsert r T hT a _ (pairwise_insertionSort r T hT l hl')
      fun b hb => ha b ((List.mem_insertionSort r).mp hb)

instance : IsTotal ScoredEntry totalGE := ⟨fun a b => le_total b.total a.total⟩

instance : IsTrans ScoredEntry totalGE := ⟨fun _ _ _ hab hbc => le_trans hbc hab⟩

/-- The ranked list in the selection report is sorted by stored total,
descending. -/
lemma all_scored_sorted (cfg : AgentConfig) (mathLog : ℕ → ℚ) (imgs : List OkImage) :
    (tool_select_best_images cfg mathLog imgs).all_scored.Pairwise totalGE := by
  have hs : ((imgs.map (scoreEntry mathLog)).insertionSort totalGE).Pairwise totalGE :=
    List.sorted_insertionSort totalGE (imgs.map (scoreEntry mathLog))
  exact pairwise_of_map_keyOf (Q := fun p q => q.1 ≤ p.1)
    (all_scored_map_keyOf cfg mathLog imgs) hs

/-- Entries with equal stored totals appear in the ranked list in their
input order, which is ascending filename order. -/
lemma all_scored_stable_ties (cfg : AgentConfig) (mathLog : ℕ → ℚ) (imgs : List OkImage)
    (hsorted : imgs.Pairwise fun a b => a.file < b.file) :
    (tool_select_best_images cfg mathLog imgs).all_scored.Pairwise
      fun a b => a.total = b.total → a.file < b.file := by
  have hin : (imgs.map (scoreEntry mathLog)).Pairwise
      fun a b => a.total = b.total → a.file < b.file := by
    rw [List.pairwise_map]
    refine hsorted.imp ?_
    intro a b h _
    exact h
  have hs := pairwise_insertionSort totalGE
    (fun a b : ScoredEntry => a.total = b.total → a.file < b.file)
    (fun x y h heq => absurd (le_of_eq heq) h) _ hin
  exact pairwise_of_map_keyOf (Q := fun p q => p.1 = q.1 → p.2 < q.2)
    (all_scored_map_keyOf cfg mathLog imgs) hs

lemma arDist_eq_zero (r : ℚ) (h : r = 4/5 ∨ r = 3/4 ∨ r = 2/3) : arDist r = 0 := by
  have hd : 0 ≤ arDist r := le_min (le_min (abs_nonneg _) (abs_nonneg _)) (abs_nonneg _)
  refine le_antisymm ?_ hd
  rcases h with rfl | rfl | rfl
  · have h1 : arDist (4/5) ≤ |(4 : ℚ)/5 - 4/5| :=
      le_trans (min_le_left _ _) (min_le_left _ _)
    simpa using h1
  · have h1 : arDist (3/4) ≤ |(3 : ℚ)/4 - 3/4| :=
      le_trans (min_le_left _ _) (min_le_right _ _)
    simpa using h1
  · have h1 : arDist (2/3) ≤ |(2 : ℚ)/3 - 2/3| := min_le_right _ _
    simpa using h1

lemma take_assignPicks_append (t : ℕ) (ranked : List ScoredEntry) :
    (assignPicks 1 (ranked.take t) ++ ranked.drop t).take t
      = assignPicks 1 (ranked.take t) := by
  have hlen : (assignPicks 1 (ranked.take t)).length = min t ranked.length := by
    rw [assignPicks_length, List.length_take]
  rw [List.take_append_eq_append_take,
    List.take_of_length_le (le_trans (le_of_eq hlen) (min_le_left _ _))]
  have h0 : (ranked.drop t).take (t - (assignPicks 1 (ranked.take t)).length) = [] := by
    rcases le_or_lt ranked.length t with hle | hlt
    · rw [List.drop_eq_nil_of_le hle, List.take_nil]
    · rw [hlen, min_eq_left hlt.le, Nat.sub_self, List.take_zero]
  rw [h0, List.append_nil]

lemma screenEntryOf_file (f : SrcImage) : (screenEntryOf f).file = f.name := by
  obtain ⟨n, d⟩ := f
  cases d with
  | none => rfl
  | some p =>
    obtain ⟨w, h⟩ := p
    simp only [screenEntryOf]
    cases screenImage w h <;> rfl

lemma screen_partition_perm : ∀ files : List SrcImage,
    ((tool_screen_images files).passed.map (·.file)
      ++ (tool_screen_images files).failed.map (·.file)).Perm (files.map (·.name))
  | [] => by simp [tool_screen_images]
  | f :: rest => by
    have ih := screen_partition_perm rest
    by_cases h : (screenEntryOf f).reason = none
    · have heq : tool_screen_images (f :: rest)
          = ⟨screenEntryOf f :: (tool_screen_images rest).passed,
             (tool_screen_images rest).failed⟩ := by
        simp [tool_screen_images, h]
      rw [heq]
      simp only [List.map_cons, List.cons_append]
      rw [screenEntryOf_file]
      exact ih.cons f.name
    · have heq : tool_screen_images (f :: rest)
          = ⟨(tool_screen_images rest).passed,
             screenEntryOf f :: (tool_screen_images rest).failed⟩ := by
        simp [tool_screen_images, h]
      rw [heq]
      simp only [List.map_cons]
      rw [screenEntryOf_file]
      exact List.Perm.trans List.perm_middle (ih.cons f.name)

lemma screen_failed_all_some : ∀ files : List SrcImage,
    ((tool_screen_images files).failed.all fun e => e.reason.isSome) = true
  | [] => rfl
  | f :: rest => by
    have ih := screen_failed_all_some rest
    by_cases h : (screenEntryOf f).reason = none
    · simp only [tool_screen_images, if_pos h]
      exact ih
    · have hs := Option.ne_none_iff_isSome.mp h
      simp only [tool_screen_images, if_neg h, List.all_cons, hs, Bool.true_and]
      exact ih

lemma screen_passed_all_none : ∀ files : List SrcImage,
    ((tool_screen_images files).passed.all fun e => e.reason.isNone) = true
  | [] => rfl
  | f :: rest => by
    have ih := screen_passed_all_none rest
    by_cases h : (screenEntryOf f).reason = none
    · have heq : tool_screen_images (f :: rest)
          = ⟨screenEntryOf f :: (tool_screen_images rest).passed,
             (tool_screen_images rest).failed⟩ := by
        simp [tool_screen_images, h]
      rw [heq]
      simp only [List.all_cons, h, Option.isNone_none, Bool.true_and]
      exact ih
    · have heq : tool_screen_images (f :: rest)
          = ⟨(tool_screen_images rest).passed,
             screenEntryOf f :: (tool_screen_images rest).failed⟩ := by
        simp [tool_screen_images, h]
      rw [heq]
      exact ih

/-! ## Claims -/

/-- C1 counterexample: with the screened subarea empty when selection
begins, tool_select_best_images completes normally, producing zero picks
and an empty selection report, instead of failing with a fatal error. -/
theorem select_empty_completes_normally :
    (tool_select_best_images ⟨"cats", 10, 3⟩ (fun _ => 0) []).selected = []
      ∧ (tool_select_best_images ⟨"cats", 10, 3⟩ (fun _ => 0) []).all_scored = [] :=
  ⟨rfl, rfl⟩

/-- C1 (amended): on an empty screened subarea, selection completes
normally with zero picks and an empty report; the fatal missing-input
check happens one stage later, in rendering, which raises "No picks
found" on the then-empty picks subarea. -/
theorem select_empty_report_and_render_guard (cfg : AgentConfig) (mathLog : ℕ → ℚ) :
    (tool_select_best_images cfg mathLog []).selected = []
      ∧ (tool_select_best_images cfg mathLog []).all_scored = []
      ∧ tool_render_worksheet_pdfs cfg [] = .error .noPicks := by
  refine ⟨?_, ?_, rfl⟩ <;>
    simp [tool_select_best_images, List.insertionSort, assignPicks]

/-- C3 counterexample: with sheets_to_generate = 0 and one screened-passed
image, selection copies one pick, while min(sheets_to_generate, count) = 0,
so the claimed count min(sheets_to_generate, count) is wrong. -/
theorem select_count_zero_sheets :
    (tool_select_best_images ⟨"cats", 10, 0⟩ (fun _ => 0)
        [⟨"pexels_0001.jpg", 2000, 2000, 0⟩]).selected.length = 1
      ∧ min 0 1 = 0 :=
  ⟨rfl, rfl⟩

/-- C3 (amended): for every configuration and every list of screened-passed
images, the number of picks selected and copied by tool_select_best_images
equals min(max(1, sheets_to_generate), count of screened-passed images);
for sheets_to_generate ≥ 1 this is min(sheets_to_generate, count). -/
theorem select_count_eq_min (cfg : AgentConfig) (mathLog : ℕ → ℚ) (imgs : List OkImage) :
    (tool_select_best_images cfg mathLog imgs).selected.length
      = min (max 1 cfg.sheets_to_generate) imgs.length := by
  simp [tool_select_best_images, assignPicks_length, List.length_take]

/-- C9: the aspect sub-score 1/(1 + d), with d the minimum absolute
difference between the width/height ratio and the target ratios
4/5, 3/4, 2/3, always lies in (0, 1], and equals 1 exactly when the ratio
matches one of the target ratios. -/
theorem aspect_score_bounds (ratio : ℚ) :
    0 < arScore ratio ∧ arScore ratio ≤ 1
      ∧ (arScore ratio = 1 ↔ ratio = 4/5 ∨ ratio = 3/4 ∨ ratio = 2/3) := by
  have hd : 0 ≤ arDist ratio := le_min (le_min (abs_nonneg _) (abs_nonneg _)) (abs_nonneg _)
  have hpos : (0 : ℚ) < 1 + arDist ratio := by linarith
  refine ⟨div_pos one_pos hpos, ?_, ?_⟩
  · rw [arScore, div_le_one hpos]
    linarith
  · constructor
    · intro h
      rw [arScore] at h
      have h1 : (1 : ℚ) + arDist ratio = 1 := by
        field_simp at h
        linarith
      have hd0 : arDist ratio = 0 := by linarith
      have habs : |ratio - 4/5| = 0 ∨ |ratio - 3/4| = 0 ∨ |ratio - 2/3| = 0 := by
        by_contra hcon
        push_neg at hcon
        have h1 : 0 < |ratio - 4/5| := lt_of_le_of_ne (abs_nonneg _) (Ne.symm hcon.1)
        have h2 : 0 < |ratio - 3/4| := lt_of_le_of_ne (abs_nonneg _) (Ne.symm hcon.2.1)
        have h3 : 0 < |ratio - 2/3| := lt_of_le_of_ne (abs_nonneg _) (Ne.symm hcon.2.2)
        have : 0 < arDist ratio := lt_min (lt_min h1 h2) h3
        linarith
      rcases habs with h' | h' | h'
      · left
        have := abs_eq_zero.mp h'
        linarith
      · right; left
        have := abs_eq_zero.mp h'
        linarith
      · right; right
        have := abs_eq_zero.mp h'
        linarith
    · rintro (rfl | rfl | rfl) <;> rw [arScore, arDist_eq_zero _ (by simp)] <;> norm_num

/-- C4: for a decodable image of positive size w x h, screening passes it
iff min(w,h) ≥ 1600 and max(w,h)/min(w,h) ≤ 2.5; a failing image gets
reason resolution_too_low when the short side is under 1600, else
extreme_aspect_ratio when the aspect ratio exceeds 2.5; and the report
entry carries no reason exactly when the verdict is passed (which is when
the file is copied to the screened subarea). -/
theorem screen_pass_iff_thresholds (n : String) (w h : ℕ) (hw : 0 < w) (hh : 0 < h) :
    (screenImage w h = .passed
        ↔ 1600 ≤ min w h ∧ ((max w h : ℕ) : ℚ) / ((min w h : ℕ) : ℚ) ≤ 5/2)
      ∧ (min w h < 1600 → screenImage w h = .resolutionTooLow)
      ∧ (1600 ≤ min w h → (5 : ℚ)/2 < ((max w h : ℕ) : ℚ) / ((min w h : ℕ) : ℚ) →
          screenImage w h = .extremeAspectRatio)
      ∧ ((screenEntryOf ⟨n, some (w, h)⟩).reason = none ↔ screenImage w h = .passed) := by
  have hmin : min w h ≠ 0 := (lt_min hw hh).ne'
  refine ⟨⟨?_, ?_⟩, ?_, ?_, ?_⟩
  · intro hp
    rw [screenImage, if_neg hmin] at hp
    split_ifs at hp with h1 h2
    exact ⟨not_lt.mp h1, not_lt.mp h2⟩
  · rintro ⟨hge, hle⟩
    rw [screenImage, if_neg hmin, if_neg (not_lt.mpr hge), if_neg (not_lt.mpr hle)]
  · intro hlt
    rw [screenImage, if_neg hmin, if_pos hlt]
  · intro hge har
    rw [screenImage, if_neg hmin, if_neg (not_lt.mpr hge), if_pos har]
  · simp only [screenEntryOf]
    cases screenImage w h <;> simp

/-- C4 witness: a 1600 x 2000 image passes screening, and the three
characterisations hold at that concrete size. -/
theorem screen_pass_iff_thresholds_witness :
    (0 < 1600) ∧ (0 < 2000)
      ∧ ((screenImage 1600 2000 = .passed
            ↔ 1600 ≤ min 1600 2000
                ∧ ((max 1600 2000 : ℕ) : ℚ) / ((min 1600 2000 : ℕ) : ℚ) ≤ 5/2)
          ∧ (min 1600 2000 < 1600 → screenImage 1600 2000 = .resolutionTooLow)
          ∧ (1600 ≤ min 1600 2000 →
              (5 : ℚ)/2 < ((max 1600 2000 : ℕ) : ℚ) / ((min 1600 2000 : ℕ) : ℚ) →
              screenImage 1600 2000 = .extremeAspectRatio)
          ∧ ((screenEntryOf ⟨"pexels_0001.jpg", some (1600, 2000)⟩).reason = none
              ↔ screenImage 1600 2000 = .passed)) :=
  ⟨by decide, by decide,
   screen_pass_iff_thresholds "pexels_0001.jpg" 1600 2000 (by decide) (by decide)⟩

/-- C6: over any duplicate-free list of examined files, the screening
report's passed and failed lists together contain exactly the examined
files, once each (their filename lists are a permutation of the input
names and duplicate-free); every failed entry carries a reason and no
passed entry does. -/
theorem screen_report_partition (files : List SrcImage)
    (hnd : (files.map (·.name)).Nodup) :
    ((tool_screen_images files).passed.map (·.file)
        ++ (tool_screen_images files).failed.map (·.file)).Perm (files.map (·.name))
      ∧ ((tool_screen_images files).passed.map (·.file)
          ++ (tool_screen_images files).failed.map (·.file)).Nodup
      ∧ ((tool_screen_images files).failed.all fun e => e.reason.isSome) = true
      ∧ ((tool_screen_images files).passed.all fun e => e.reason.isNone) = true :=
  ⟨screen_partition_perm files,
   (screen_partition_perm files).nodup_iff.mpr hnd,
   screen_failed_all_some files,
   screen_passed_all_none files⟩

/-- C6 witness: three examined files (one passing, one too small, one
undecodable) are reported exactly once each, failures with reasons. -/
theorem screen_report_partition_witness :
    (([⟨"pexels_0001.jpg", some (2000, 2000)⟩, ⟨"pexels_0002.jpg", some (100, 100)⟩,
        (⟨"pexels_0003.jpg", none⟩ : SrcImage)].map (·.name)).Nodup)
      ∧ (((tool_screen_images [⟨"pexels_0001.jpg", some (2000, 2000)⟩,
              ⟨"pexels_0002.jpg", some (100, 100)⟩, ⟨"pexels_0003.jpg", none⟩]).passed.map (·.file)
            ++ (tool_screen_images [⟨"pexels_0001.jpg", some (2000, 2000)⟩,
              ⟨"pexels_0002.jpg", some (100, 100)⟩, ⟨"pexels_0003.jpg", none⟩]).failed.map (·.file)).Perm
            ([⟨"pexels_0001.jpg", some (2000, 2000)⟩, ⟨"pexels_0002.jpg", some (100, 100)⟩,
              (⟨"pexels_0003.jpg", none⟩ : SrcImage)].map (·.name))
          ∧ ((tool_screen_images [⟨"pexels_0001.jpg", some (2000, 2000)⟩,
              ⟨"pexels_0002.jpg", some (100, 100)⟩, ⟨"pexels_0003.jpg", none⟩]).passed.map (·.file)
            ++ (tool_screen_images [⟨"pexels_0001.jpg", some (2000, 2000)⟩,
              ⟨"pexels_0002.jpg", some (100, 100)⟩, ⟨"pexels_0003.jpg", none⟩]).failed.map (·.file)).Nodup
          ∧ ((tool_screen_images [⟨"pexels_0001.jpg", some (2000, 2000)⟩,
              ⟨"pexels_0002.jpg", some (100, 100)⟩, ⟨"pexels_0003.jpg", none⟩]).failed.all
                fun e => e.reason.isSome) = true
          ∧ ((tool_screen_images [⟨"pexels_0001.jpg", some (2000, 2000)⟩,
              ⟨"pexels_0002.jpg", some (100, 100)⟩, ⟨"pexels_0003.jpg", none⟩]).passed.all
                fun e => e.reason.isNone) = true) :=
  ⟨by decide,
   screen_report_partition [⟨"pexels_0001.jpg", some (2000, 2000)⟩,
     ⟨"pexels_0002.jpg", some (100, 100)⟩, ⟨"pexels_0003.jpg", none⟩] (by decide)⟩

/-- C5: over a filename-sorted screened set, the selected picks are exactly
the first max(1, sheets_to_generate) entries of the full ranked list; the
ranked list is sorted by stored total, descending; and candidates with
equal stored totals appear in ascending original-filename order (the sort
is stable over the filename-sorted input). -/
theorem select_prefix_and_stable_ties (cfg : AgentConfig) (mathLog : ℕ → ℚ)
    (imgs : List OkImage) (hsorted : imgs.Pairwise fun a b => a.file < b.file) :
    (tool_select_best_images cfg mathLog imgs).selected
        = (tool_select_best_images cfg mathLog imgs).all_scored.take
            (max 1 cfg.sheets_to_generate)
      ∧ (tool_select_best_images cfg mathLog imgs).all_scored.Pairwise totalGE
      ∧ (tool_select_best_images cfg mathLog imgs).all_scored.Pairwise
          (fun a b => a.total = b.total → a.file < b.file) :=
  ⟨(take_assignPicks_append (max 1 cfg.sheets_to_generate)
      ((imgs.map (scoreEntry mathLog)).insertionSort totalGE)).symm,
   all_scored_sorted cfg mathLog imgs,
   all_scored_stable_ties cfg mathLog imgs hsorted⟩

/-- C5 witness: three screened images, two of them with identical scores;
the picks are the top-2 prefix and the tie stays in filename order. -/
theorem select_prefix_and_stable_ties_witness :
    (([(⟨"a.jpg", 1600, 1600, 0⟩ : OkImage), ⟨"b.jpg", 1600, 1600, 0⟩,
        ⟨"c.jpg", 1600, 1600, 64⟩].Pairwise fun a b => a.file < b.file))
      ∧ ((tool_select_best_images ⟨"cats", 10, 2⟩ (fun _ => 0)
            [⟨"a.jpg", 1600, 1600, 0⟩, ⟨"b.jpg", 1600, 1600, 0⟩,
             ⟨"c.jpg", 1600, 1600, 64⟩]).selected
          = (tool_select_best_images ⟨"cats", 10, 2⟩ (fun _ => 0)
              [⟨"a.jpg", 1600, 1600, 0⟩, ⟨"b.jpg", 1600, 1600, 0⟩,
               ⟨"c.jpg", 1600, 1600, 64⟩]).all_scored.take (max 1 2)
          ∧ (tool_select_best_images ⟨"cats", 10, 2⟩ (fun _ => 0)
              [⟨"a.jpg", 1600, 1600, 0⟩, ⟨"b.jpg", 1600, 1600, 0⟩,
               ⟨"c.jpg", 1600, 1600, 64⟩]).all_scored.Pairwise totalGE
          ∧ (tool_select_best_images ⟨"cats", 10, 2⟩ (fun _ => 0)
              [⟨"a.jpg", 1600, 1600, 0⟩, ⟨"b.jpg", 1600, 1600, 0⟩,
               ⟨"c.jpg", 1600, 1600, 64⟩]).all_scored.Pairwise
              (fun a b => a.total = b.total → a.file < b.file)) :=
  ⟨List.Pairwise.imp (fun h => String.lt_iff_toList_lt.mpr h) (by decide),
   select_prefix_and_stable_ties ⟨"cats", 10, 2⟩ (fun _ => 0)
     [⟨"a.jpg", 1600, 1600, 0⟩, ⟨"b.jpg", 1600, 1600, 0⟩, ⟨"c.jpg", 1600, 1600, 64⟩]
     (List.Pairwise.imp (fun h => String.lt_iff_toList_lt.mpr h) (by decide))⟩

/-- C10: the ranking key stored in each report entry, and used by the sort,
is the 3-decimal rounded value of the exact weighted total (the multiset of
(key, filename) pairs of the ranked list equals the rounded exact totals of
the input images); consequently entries whose stored (rounded) totals
coincide are ordered as ties, in ascending input-filename order, even when
their exact totals differ. -/
theorem select_key_is_rounded_total (cfg : AgentConfig) (mathLog : ℕ → ℚ)
    (imgs : List OkImage) (hsorted : imgs.Pairwise fun a b => a.file < b.file) :
    ((tool_select_best_images cfg mathLog imgs).all_scored.map keyOf).Perm
        (imgs.map fun img => (roundTo 3 (exactTotal mathLog img), img.file))
      ∧ (tool_select_best_images cfg mathLog imgs).all_scored.Pairwise
          (fun a b => a.total = b.total → a.file < b.file) := by
  refine ⟨?_, all_scored_stable_ties cfg mathLog imgs hsorted⟩
  rw [all_scored_map_keyOf]
  refine ((List.perm_insertionSort totalGE (imgs.map (scoreEntry mathLog))).map keyOf).trans ?_
  rw [List.map_map]
  exact List.Perm.refl _

/-- C10 witness: two images whose exact totals differ by 3/12800 but round
to the same 3-decimal value 1.667 are ranked as ties, in filename order. -/
theorem select_key_is_rounded_total_witness :
    exactTotal (fun _ => 0) ⟨"a.jpg", 1600, 1600, 0⟩
        ≠ exactTotal (fun _ => 0) ⟨"b.jpg", 1600, 1600, 1/100⟩
      ∧ roundTo 3 (exactTotal (fun _ => 0) ⟨"a.jpg", 1600, 1600, 0⟩)
          = roundTo 3 (exactTotal (fun _ => 0) ⟨"b.jpg", 1600, 1600, 1/100⟩)
      ∧ (([(⟨"a.jpg", 1600, 1600, 0⟩ : OkImage), ⟨"b.jpg", 1600, 1600, 1/100⟩].Pairwise
            fun a b => a.file < b.file))
      ∧ (((tool_select_best_images ⟨"cats", 10, 3⟩ (fun _ => 0)
              [⟨"a.jpg", 1600, 1600, 0⟩, ⟨"b.jpg", 1600, 1600, 1/100⟩]).all_scored.map keyOf).Perm
            ([(⟨"a.jpg", 1600, 1600, 0⟩ : OkImage), ⟨"b.jpg", 1600, 1600, 1/100⟩].map
              fun img => (roundTo 3 (exactTotal (fun _ => 0) img), img.file))
          ∧ (tool_select_best_images ⟨"cats", 10, 3⟩ (fun _ => 0)
              [⟨"a.jpg", 1600, 1600, 0⟩, ⟨"b.jpg", 1600, 1600, 1/100⟩]).all_scored.Pairwise
              (fun a b => a.total = b.total → a.file < b.file)) :=
  ⟨by norm_num [exactTotal, arScore, arDist, abs_of_nonneg],
   by norm_num [exactTotal, arScore, arDist, roundTo, roundHalfEven, abs_of_nonneg],
   List.Pairwise.imp (fun h => String.lt_iff_toList_lt.mpr h) (by decide),
   select_key_is_rounded_total ⟨"cats", 10, 3⟩ (fun _ => 0)
     [⟨"a.jpg", 1600, 1600, 0⟩, ⟨"b.jpg", 1600, 1600, 1/100⟩]
     (List.Pairwise.imp (fun h => String.lt_iff_toList_lt.mpr h) (by decide))⟩

lemma fetchAttempts_no_httpError (fetch : ℕ → FetchResult)
    (hf : ∀ a s, fetch a ≠ .httpError s) :
    ∀ remaining attempt, ∃ b, fetchAttempts fetch attempt remaining = .ok b := by
  intro remaining
  induction remaining with
  | zero => exact fun attempt => ⟨false, rfl⟩
  | succ n ih =>
    intro attempt
    cases hfa : fetch attempt with
    | ok => exact ⟨true, by rw [fetchAttempts, hfa]⟩
    | rateLimited ra =>
      obtain ⟨b, hb⟩ := ih (attempt + 1)
      exact ⟨b, by rw [fetchAttempts, hfa]; exact hb⟩
    | httpError s => exact absurd hfa (hf attempt s)

lemma downloadGo_no_httpError (fetch : String → ℕ → FetchResult)
    (hf : ∀ u a s, fetch u a ≠ .httpError s) :
    ∀ photos idx, ∃ pr, downloadGo fetch idx photos = .ok pr := by
  intro photos
  induction photos with
  | nil => exact fun idx => ⟨([], []), rfl⟩
  | cons photo rest ih =>
    intro idx
    obtain ⟨⟨paths, items⟩, hpr⟩ := ih (idx + 1)
    cases hurl : photo.src_original <|> photo.src_large2x <|> photo.src_large with
    | none => exact ⟨(paths, items), by simp only [downloadGo, hurl]; exact hpr⟩
    | some url =>
      obtain ⟨b, hb⟩ := fetchAttempts_no_httpError (fetch url) (hf url) 3 1
      cases b with
      | false => exact ⟨(paths, items), by simp only [downloadGo, hurl, hb]; exact hpr⟩
      | true =>
        exact ⟨(rawPath idx :: paths, mkManifestItem idx photo url (rawPath idx) :: items),
          by simp only [downloadGo, hurl, hb, hpr]⟩

lemma downloadGo_spec (fetch : String → ℕ → FetchResult) :
    ∀ (photos : List Photo) (idx : ℕ) (paths : List String) (items : List ManifestItem),
      downloadGo fetch idx photos = .ok (paths, items) →
      paths.length ≤ photos.length
        ∧ items.map (·.local_file) = paths
        ∧ (items.map (·.index)).Chain' (· < ·)
        ∧ ∀ i ∈ items.map (·.index), idx ≤ i := by
  intro photos
  induction photos with
  | nil =>
    intro idx paths items h
    rw [downloadGo] at h
    injection h with h'
    injection h' with h1 h2
    subst h1
    subst h2
    exact ⟨le_refl _, rfl, List.chain'_nil, by simp⟩
  | cons photo rest ih =>
    intro idx paths items h
    cases hurl : photo.src_original <|> photo.src_large2x <|> photo.src_large with
    | none =>
      simp only [downloadGo, hurl] at h
      obtain ⟨h1, h2, h3, h4⟩ := ih (idx + 1) paths items h
      exact ⟨h1.trans (Nat.le_succ _), h2, h3,
        fun i hi => (Nat.le_succ idx).trans (h4 i hi)⟩
    | some url =>
      simp only [downloadGo, hurl] at h
      cases hfa : fetchAttempts (fetch url) 1 3 with
      | error e =>
        rw [hfa] at h
        exact Except.noConfusion h
      | ok b =>
        rw [hfa] at h
        cases b with
        | false =>
          obtain ⟨h1, h2, h3, h4⟩ := ih (idx + 1) paths items h
          exact ⟨h1.trans (Nat.le_succ _), h2, h3,
            fun i hi => (Nat.le_succ idx).trans (h4 i hi)⟩
        | true =>
          cases hgo : downloadGo fetch (idx + 1) rest with
          | error e =>
            rw [hgo] at h
            exact Except.noConfusion h
          | ok pr =>
            obtain ⟨paths', items'⟩ := pr
            rw [hgo] at h
            injection h with h'
            injection h' with hp hi
            subst hp
            subst hi
            obtain ⟨h1, h2, h3, h4⟩ := ih (idx + 1) paths' items' hgo
            refine ⟨Nat.succ_le_succ h1, ?_, ?_, ?_⟩
            · rw [List.map_cons, h2]
              rfl
            · rw [List.map_cons]
              refine List.chain'_cons'.mpr ⟨?_, h3⟩
              intro y hy
              exact lt_of_lt_of_le (Nat.lt_succ_self idx)
                (h4 y (List.mem_of_mem_head? hy))
            · intro i hi'
              rw [List.map_cons] at hi'
              rcases List.mem_cons.mp hi' with rfl | hi''
              · exact le_refl _
              · exact (Nat.le_succ idx).trans (h4 i hi'')

lemma renderGo_eq (l : List String) : ∀ i : ℕ,
    renderGo i l = (List.range l.length).map
      fun k => "sheets/worksheet_" ++ pad 2 (i + k) ++ ".pdf" := by
  induction l with
  | nil => exact fun i => rfl
  | cons x rest ih =>
    intro i
    rw [renderGo, ih (i + 1), List.length_cons, List.range_succ_eq_map, List.map_cons,
      List.map_map]
    congr 1
    refine List.map_congr_left ?_
    intro k hk
    simp only [Function.comp_apply, Nat.succ_eq_add_one]
    have hik : i + 1 + k = i + (k + 1) := by omega
    rw [hik]

/-- C2 counterexample: with two downloadable search results, a non-429
HTTP error (status 500) on the first image's fetch makes the whole
acquisition operation raise, instead of skipping that image only. -/
theorem download_aborts_on_http_error :
    tool_download_pexels_images ⟨"cats", 10, 3⟩
        [⟨1, "alice", 3000, 2000, "u1", some "a", none, none⟩,
         ⟨2, "bob", 3000, 2000, "u2", some "b", none, none⟩]
        (fun url _ => if url = "a" then .httpError 500 else .ok)
      = .error (.httpError 500) := rfl

/-- C2 (amended): an image is given up on individually only when its
result lacks an image URL or all three fetch attempts are rate-limited;
in every run where no fetch returns a non-429 HTTP error response, the
overall acquisition completes without raising (and a non-429 error
response aborts the whole operation, as the counterexample shows). -/
theorem download_ok_when_no_http_error (cfg : AgentConfig) (photos : List Photo)
    (fetch : String → ℕ → FetchResult) (hne : photos ≠ [])
    (hf : ∀ u a s, fetch u a ≠ FetchResult.httpError s) :
    (tool_download_pexels_images cfg photos fetch).isOk = true := by
  obtain ⟨⟨paths, items⟩, hpr⟩ :=
    downloadGo_no_httpError fetch hf (photos.take cfg.candidates_to_download) 1
  rw [tool_download_pexels_images, if_neg (by simpa [List.isEmpty_iff] using hne), hpr]
  rfl

/-- C2 witness: the first image's three attempts are all rate-limited, so
it is skipped; acquisition still completes, downloading the second image. -/
theorem download_ok_when_no_http_error_witness :
    (([⟨1, "alice", 3000, 2000, "u1", some "a", none, none⟩,
        (⟨2, "bob", 3000, 2000, "u2", some "b", none, none⟩ : Photo)]) ≠ [])
      ∧ (tool_download_pexels_images ⟨"cats", 10, 3⟩
            [⟨1, "alice", 3000, 2000, "u1", some "a", none, none⟩,
             ⟨2, "bob", 3000, 2000, "u2", some "b", none, none⟩]
            (fun url _ => if url = "a" then .rateLimited (some 5) else .ok)).isOk = true
      ∧ tool_download_pexels_images ⟨"cats", 10, 3⟩
            [⟨1, "alice", 3000, 2000, "u1", some "a", none, none⟩,
             ⟨2, "bob", 3000, 2000, "u2", some "b", none, none⟩]
            (fun url _ => if url = "a" then .rateLimited (some 5) else .ok)
          = .ok ⟨["raw/pexels_0002.jpg"],
                 [⟨2, 2, "bob", 3000, 2000, "u2", "b", "raw/pexels_0002.jpg"⟩], 10, 1⟩ :=
  ⟨List.cons_ne_nil _ _,
   download_ok_when_no_http_error ⟨"cats", 10, 3⟩ _ _ (List.cons_ne_nil _ _)
     (fun u a s => by by_cases hu : u = "a" <;> simp [hu]),
   rfl⟩

/-- C7: whenever acquisition completes, it has written at most
candidates_to_download files, the manifest entries correspond one-to-one
and in order to the written files with matching local path, and the
manifest indexes are strictly increasing (so no file can be matched by
two entries). -/
theorem download_manifest_correspondence (cfg : AgentConfig) (photos : List Photo)
    (fetch : String → ℕ → FetchResult) (r : AcqResult)
    (h : tool_download_pexels_images cfg photos fetch = .ok r) :
    r.downloaded_paths.length ≤ cfg.candidates_to_download
      ∧ r.items.map (·.local_file) = r.downloaded_paths
      ∧ (r.items.map (·.index)).Chain' (· < ·) := by
  rw [tool_download_pexels_images] at h
  by_cases hne : photos.isEmpty = true
  · rw [if_pos hne] at h
    exact Except.noConfusion h
  · rw [if_neg hne] at h
    cases hgo : downloadGo fetch 1 (photos.take cfg.candidates_to_download) with
    | error e =>
      rw [hgo] at h
      exact Except.noConfusion h
    | ok pr =>
      obtain ⟨paths, items⟩ := pr
      rw [hgo] at h
      injection h with h'
      subst h'
      obtain ⟨h1, h2, h3, _⟩ :=
        downloadGo_spec fetch (photos.take cfg.candidates_to_download) 1 paths items hgo
      exact ⟨h1.trans (List.length_take_le _ _), h2, h3⟩

/-- C7 witness: one downloaded image and one URL-less (skipped) result;
the single written file has the single matching manifest entry. -/
theorem download_manifest_correspondence_witness :
    tool_download_pexels_images ⟨"cats", 10, 3⟩
        [⟨1, "alice", 3000, 2000, "u1", some "a", none, none⟩,
         ⟨2, "bob", 3000, 2000, "u2", none, none, none⟩] (fun _ _ => .ok)
      = .ok ⟨["raw/pexels_0001.jpg"],
             [⟨1, 1, "alice", 3000, 2000, "u1", "a", "raw/pexels_0001.jpg"⟩], 10, 1⟩
      ∧ ((["raw/pexels_0001.jpg"] : List String).length ≤ 10
          ∧ ([(⟨1, 1, "alice", 3000, 2000, "u1", "a", "raw/pexels_0001.jpg"⟩ : ManifestItem)].map
              (·.local_file)) = ["raw/pexels_0001.jpg"]
          ∧ (([(⟨1, 1, "alice", 3000, 2000, "u1", "a", "raw/pexels_0001.jpg"⟩ : ManifestItem)].map
              (·.index)).Chain' (· < ·))) :=
  ⟨rfl, download_manifest_correspondence ⟨"cats", 10, 3⟩
    [⟨1, "alice", 3000, 2000, "u1", some "a", none, none⟩,
     ⟨2, "bob", 3000, 2000, "u2", none, none, none⟩] (fun _ _ => .ok) _ rfl⟩

/-- C8: on a non-empty picks subarea with K picks, rendering produces
exactly K worksheets, one per pick in rank order, named densely
worksheet_01 .. worksheet_K by list position, independent of the pick
filenames themselves. -/
theorem render_dense_numbering (cfg : AgentConfig) (picks : List String)
    (h : picks ≠ []) :
    tool_render_worksheet_pdfs cfg picks
      = .ok ((List.range picks.length).map
          fun k => "sheets/worksheet_" ++ pad 2 (k + 1) ++ ".pdf") := by
  rw [tool_render_worksheet_pdfs, if_neg (by simpa [List.isEmpty_iff] using h),
    renderGo_eq]
  congr 1
  refine List.map_congr_left ?_
  intro k hk
  rw [Nat.add_comm 1 k]

/-- C8 witness: two picks with a numbering gap (pick_01, pick_03) still
yield worksheet_01 and worksheet_02. -/
theorem render_dense_numbering_witness :
    ((["pick_01.jpg", "pick_03.jpg"] : List String) ≠ [])
      ∧ tool_render_worksheet_pdfs ⟨"cats", 10, 3⟩ ["pick_01.jpg", "pick_03.jpg"]
          = .ok ["sheets/worksheet_01.pdf", "sheets/worksheet_02.pdf"] := by
  refine ⟨List.cons_ne_nil _ _, ?_⟩
  rw [render_dense_numbering ⟨"cats", 10, 3⟩ ["pick_01.jpg", "pick_03.jpg"]
    (List.cons_ne_nil _ _)]
  rfl

end DailyLineSheet
